import Mathlib

unseal Rat.mul Rat.inv Rat.add Rat.sub

/-!
# Verification of the UPD Document Parsing & Reconciliation Engine

A shallow embedding of the Go sources of `UpdLoader-go`
(`internal/parser/upd_parser.go`, the `moysklad` API client, and
`internal/models/models.go`) together with proofs about the embedded
functions.

Modelling conventions:
* `decimal.Decimal` (shopspring) is modelled by `ℚ`; `IntPart` truncates
  toward zero.
* Go strings are Lean `String`s; Go `len(s)` is `String.utf8ByteSize`
  (Go counts bytes); `strings.TrimSpace` is `goTrimSpace`.
* File-system paths are slash-separated strings; `filepath.Clean`,
  `filepath.Join` and `filepath.Dir` are modelled by their documented
  lexical algorithms (`pathClean`, `pathJoin`, `pathDir`).
* XML unmarshalling and the `dd.mm.yyyy` date parser of the Go standard
  library are abstracted as parameters (`ParserEnv`): the logic under
  verification is what the parser does with their results.
* The MoySklad HTTP API is abstracted as an environment of response
  functions (`MSEnv`); the document-creation POST requests issued by the
  client are collected in an explicit trace (`MSRequest`).
* I/O failures (unreadable files, failed writes, non-200 responses on
  reads) are not modelled; the control flow on successfully delivered
  responses is.
-/

/-! ## String primitives

Kernel-computable models of the Go string primitives used by the
sources (`strings.HasPrefix`, `strings.Split` on a one-character
separator, `strings.TrimSpace`). -/

/-- `listIsPrefix pre s`: `pre` is a prefix of `s`. -/
def listIsPrefix : List Char → List Char → Bool
  | [], _ => true
  | _ :: _, [] => false
  | a :: as, b :: bs => a == b && listIsPrefix as bs

/-- `strings.HasPrefix s pre`. -/
def strHasPrefix (s pre : String) : Bool :=
  listIsPrefix pre.data s.data

/-- Split a character list at every occurrence of `sep`; `acc` carries
the current field in reverse. -/
def splitCharsOn (sep : Char) : List Char → List Char → List (List Char)
  | [], acc => [acc.reverse]
  | c :: cs, acc =>
    if c == sep then acc.reverse :: splitCharsOn sep cs []
    else splitCharsOn sep cs (c :: acc)

/-- Split a string on the slash separator (`strings.Split(s, "/")`). -/
def splitOnSlash (s : String) : List String :=
  (splitCharsOn '/' s.data []).map String.mk

/-- `strings.TrimSpace`: drop whitespace from both ends. -/
def goTrimSpace (s : String) : String :=
  String.mk (((s.data.dropWhile Char.isWhitespace).reverse.dropWhile Char.isWhitespace).reverse)

/-! ## Safe decimal parsing (`parseDecimal`, shopspring `NewFromString`) -/

/-- Numeric value of a digit run, most significant digit first. -/
def digitsVal (cs : List Char) : Int :=
  cs.foldl (fun a c => a * 10 + (Int.ofNat (c.toNat - 48))) 0

/-- Parse an optionally signed decimal mantissa `[+-]digits[.digits]`.
Returns the digits as an integer together with the number of fractional
digits.  Mirrors shopspring `NewFromString`: at least one digit overall,
at most one dot, no other characters. -/
def parseMantissa (cs : List Char) : Option (Int × Nat) :=
  let (sign, cs1) : Int × List Char :=
    match cs with
    | '-' :: t => (-1, t)
    | '+' :: t => (1, t)
    | t => (1, t)
  let (ip, rest) := cs1.span Char.isDigit
  match rest with
  | [] => if ip.isEmpty then none else some (sign * digitsVal ip, 0)
  | '.' :: rest2 =>
    let (fp, rest3) := rest2.span Char.isDigit
    if rest3.isEmpty && !(ip.isEmpty && fp.isEmpty) then
      some (sign * digitsVal (ip ++ fp), fp.length)
    else none
  | _ => none

/-- Parse the signed digit run after the `e`/`E` of a decimal exponent. -/
def parseExpDigits (cs : List Char) : Option Int :=
  match cs with
  | '-' :: t => if !t.isEmpty && t.all Char.isDigit then some (-(digitsVal t)) else none
  | '+' :: t => if !t.isEmpty && t.all Char.isDigit then some (digitsVal t) else none
  | t => if !t.isEmpty && t.all Char.isDigit then some (digitsVal t) else none

/-- Rational value of mantissa `m` with `fracLen` fractional digits and
decimal exponent `e`. -/
def decValue (m : Int) (fracLen : Nat) (e : Int) : ℚ :=
  if 0 ≤ e then ((m * 10 ^ e.toNat : Int) : ℚ) / ((10 : ℚ) ^ fracLen)
  else (m : ℚ) / ((10 : ℚ) ^ (fracLen + (-e).toNat))

/-- shopspring `decimal.NewFromString`: signed decimal literal with an
optional `e`/`E` exponent; `none` models the error return. -/
def newFromString (s : String) : Option ℚ :=
  let (mcs, rest) := s.data.span (fun c => c != 'e' && c != 'E')
  match parseMantissa mcs with
  | none => none
  | some (m, frac) =>
    match rest with
    | [] => some (decValue m frac 0)
    | _ :: etail =>
      match parseExpDigits etail with
      | some e => some (decValue m frac e)
      | none => none

/-- `UPDParser.parseDecimal`: total safe conversion, `0` for empty or
invalid input. -/
def parseDecimal (s : String) : ℚ :=
  if s = "" then 0
  else
    match newFromString s with
    | some d => d
    | none => 0

/-- `Decimal.Mul(decimal.NewFromInt(100)).IntPart()`-style truncation
toward zero of a rational. For nonnegative operands every integer
division convention agrees, so the split is convention-independent. -/
def intPart (q : ℚ) : Int :=
  if 0 ≤ q then q.num / (q.den : Int) else -((-q).num / ((-q).den : Int))

/-! ## The document model (`internal/models/models.go`) -/

/-- A point in time: either `time.Now()` at parse time or a parsed
calendar date.  The engine only ever compares these symbolically. -/
inductive Moment
  | now
  | date (day month year : Nat)
deriving DecidableEq

/-- `models.Organization` (the parser never sets `Address`). -/
structure Organization where
  name : String
  inn : String
  kpp : String
deriving DecidableEq

/-- `models.InvoiceItem`. -/
structure InvoiceItem where
  lineNumber : Nat
  name : String
  quantity : ℚ
  price : ℚ
  amountWithoutVAT : ℚ
  vatRate : String
  vatAmount : ℚ
  amountWithVAT : ℚ
  article : String
deriving DecidableEq

/-- `models.UPDContent`. -/
structure UPDContent where
  invoiceNumber : String
  invoiceDate : Moment
  seller : Organization
  buyer : Organization
  items : List InvoiceItem
  currencyCode : String
  totalWithoutVAT : ℚ
  totalVAT : ℚ
  totalWithVAT : ℚ
  requisiteNumber : String
deriving DecidableEq

/-- `models.NewUPDContent`: defaults for the optional fields. -/
def NewUPDContent (invoiceNumber : String) (invoiceDate : Moment)
    (seller buyer : Organization) : UPDContent :=
  { invoiceNumber := invoiceNumber
    invoiceDate := invoiceDate
    seller := seller
    buyer := buyer
    items := []
    currencyCode := "643"
    totalWithoutVAT := 0
    totalVAT := 0
    totalWithVAT := 0
    requisiteNumber := "" }

/-! ## The structural parser (`internal/parser/upd_parser.go`) -/

/-- The attributes of one `СведТов` line-item element of the UPD XML. -/
structure ItemXML where
  name : String
  quantity : String
  price : String
  amountWithoutVAT : String
  vatRate : String
  amountWithVAT : String
  article : String
  vatSum : String
deriving DecidableEq

/-- Seller/buyer identity block: legal-entity branch attributes and
individual branch attributes. -/
structure PartyXML where
  legalName : String
  legalINN : String
  legalKPP : String
  individualINN : String
  surname : String
  givenName : String
  patronymic : String
deriving DecidableEq

/-- The fields of the unmarshalled UPD 5.03 document (`UPDXML`). -/
structure UPDXML where
  invoiceNumber : String
  invoiceDate : String
  seller : PartyXML
  buyer : PartyXML
  items : List ItemXML
  totalWithoutVAT : String
  totalWithVAT : String
  vatSum : String
  requisiteNumber : String

/-- Abstracted standard-library behaviour: `encoding/xml.Unmarshal` on
the UPD schema and `time.Parse("02.01.2006", _)`. -/
structure ParserEnv where
  unmarshal : String → Except String UPDXML
  parseDate : String → Option (Nat × Nat × Nat)

/-- `createBasicUPDContent`: the sentinel fallback document. -/
def createBasicUPDContent : UPDContent :=
  NewUPDContent
    "Не указан"
    Moment.now
    { name := "Не указано", inn := "0000000000", kpp := "" }
    { name := "Не указано", inn := "0000000000", kpp := "" }

/-- `UPDParser.parseOrganization`: legal-entity branch, individual
branch, then the sentinel default. -/
def parseOrganization (legalName legalINN legalKPP individualINN
    surname givenName patronymic : String) : Organization :=
  if legalINN ≠ "" then
    { name := legalName, inn := legalINN, kpp := legalKPP }
  else if individualINN ≠ "" then
    let fullName := goTrimSpace (surname ++ " " ++ givenName ++ " " ++ patronymic)
    { name := if fullName = "" then "Не указано" else fullName
      inn := individualINN
      kpp := "" }
  else
    { name := "Не указано", inn := "0000000000", kpp := "" }

/-- One parsed line item (`parseInvoiceItems` loop body); `i` is the
zero-based loop index.  `AmountWithoutVAT` is populated from the
`amountWithVAT` attribute, reproducing the source's
`// Use amount with VAT as main amount`. -/
def mkInvoiceItem (i : Nat) (x : ItemXML) : InvoiceItem :=
  { lineNumber := i + 1
    name := x.name
    quantity := parseDecimal x.quantity
    price := parseDecimal x.price
    amountWithoutVAT := parseDecimal x.amountWithVAT
    vatRate := x.vatRate
    vatAmount := parseDecimal x.vatSum
    amountWithVAT := parseDecimal x.amountWithVAT
    article := x.article }

/-- The `parseInvoiceItems` loop, carrying the running index. -/
def parseItemsFrom (i : Nat) : List ItemXML → List InvoiceItem
  | [] => []
  | x :: xs => mkInvoiceItem i x :: parseItemsFrom (i + 1) xs

/-- `UPDParser.parseInvoiceItems`. -/
def parseInvoiceItems (xs : List ItemXML) : List InvoiceItem :=
  parseItemsFrom 0 xs

/-- First maximal run of digits of a string (`regexp \d+`,
`FindAllString`, first match), `""` if none. -/
def firstDigitRun (s : String) : String :=
  go s.data
where
  go : List Char → String
  | [] => ""
  | c :: cs => if c.isDigit then String.mk (c :: cs.takeWhile Char.isDigit) else go cs

/-- `UPDParser.parseFullUPDContent`: structural parse of the main
document; any unmarshalling error degrades to the sentinel document. -/
def parseFullUPDContent (env : ParserEnv) (content : String) : UPDContent :=
  match env.unmarshal content with
  | .error _ => createBasicUPDContent
  | .ok upd =>
    let invoiceNumber := if upd.invoiceNumber = "" then "Не указан" else upd.invoiceNumber
    let invoiceDate :=
      if upd.invoiceDate ≠ "" then
        match env.parseDate upd.invoiceDate with
        | some (d, m, y) => Moment.date d m y
        | none => Moment.now
      else Moment.now
    let seller := parseOrganization upd.seller.legalName upd.seller.legalINN
      upd.seller.legalKPP upd.seller.individualINN upd.seller.surname
      upd.seller.givenName upd.seller.patronymic
    let buyer := parseOrganization upd.buyer.legalName upd.buyer.legalINN
      upd.buyer.legalKPP upd.buyer.individualINN upd.buyer.surname
      upd.buyer.givenName upd.buyer.patronymic
    let requisiteNumber :=
      if upd.requisiteNumber ≠ "" then firstDigitRun upd.requisiteNumber else ""
    { NewUPDContent invoiceNumber invoiceDate seller buyer with
        items := parseInvoiceItems upd.items
        totalWithoutVAT := parseDecimal upd.totalWithoutVAT
        totalVAT := parseDecimal upd.vatSum
        totalWithVAT := parseDecimal upd.totalWithVAT
        requisiteNumber := requisiteNumber }

/-- `UPDParser.parseUPDContent` after the file has been read and
decoded: a trimmed text of at most 100 bytes short-circuits to the
sentinel document, otherwise the full structural parse runs. -/
def parseUPDContent (env : ParserEnv) (content : String) : UPDContent :=
  if (goTrimSpace content).utf8ByteSize ≤ 100 then createBasicUPDContent
  else parseFullUPDContent env content

/-! ## Lexical path operations (`path/filepath` on slash paths) -/

/-- Element processing of `filepath.Clean`: drop empty and `.` elements,
let `..` pop the last kept element (kept literally at the front of a
relative path, dropped at the root of an absolute one).  `acc` holds the
kept elements in reverse. -/
def cleanParts (rooted : Bool) : List String → List String → List String
  | [], acc => acc.reverse
  | p :: ps, acc =>
    if p = "" || p = "." then cleanParts rooted ps acc
    else if p = ".." then
      match acc with
      | q :: qs =>
        if q = ".." then cleanParts rooted ps (p :: q :: qs)
        else cleanParts rooted ps qs
      | [] => if rooted then cleanParts rooted ps [] else cleanParts rooted ps [".."]
    else cleanParts rooted ps (p :: acc)

/-- `filepath.Clean` for slash-separated paths. -/
def pathClean (path : String) : String :=
  if path = "" then "."
  else
    let rooted := strHasPrefix path "/"
    let parts := cleanParts rooted (splitOnSlash path) []
    if rooted then "/" ++ String.intercalate "/" parts
    else if parts = [] then "."
    else String.intercalate "/" parts

/-- `filepath.Join` of two elements: concatenate the non-empty ones with
a separator and `Clean` the result. -/
def pathJoin (a b : String) : String :=
  if a = "" then (if b = "" then "" else pathClean b)
  else if b = "" then pathClean a
  else pathClean (a ++ "/" ++ b)

/-- `filepath.Dir`: everything before the final path element, Cleaned
(`"."` when there is no directory part). -/
def pathDir (path : String) : String :=
  pathClean (String.intercalate "/" (splitOnSlash path).dropLast)

/-! ## Archive extraction (`UPDParser.extractArchive`) -/

/-- The extraction directory of a request:
`filepath.Join(filepath.Dir(zipPath), "upd_extract")` — a fixed name
inside the temp-file's directory (also removed by `CleanupTempFiles`). -/
def extractDirOf (zipPath : String) : String :=
  pathJoin (pathDir zipPath) "upd_extract"

/-- One entry of the opened ZIP archive (contents are irrelevant to the
verified control flow). -/
structure ZipEntry where
  name : String
  isDir : Bool
deriving DecidableEq

/-- The extraction loop over the archive entries.  Returns the list of
file paths written (in order) and the error, if any.  Directory entries
create directories at the already-checked path; only file writes are
recorded.  Per-entry I/O failures are not modelled. -/
def extractEntries (dir : String) : List ZipEntry → List String → List String × Option String
  | [], written => (written.reverse, none)
  | e :: es, written =>
    let path := pathJoin dir e.name
    if strHasPrefix path (pathClean dir ++ "/") then
      if e.isDir then extractEntries dir es written
      else extractEntries dir es (path :: written)
    else (written.reverse, some ("invalid file path: " ++ e.name))

/-- `UPDParser.extractArchive` on an archive that opens successfully:
extract every entry of `entries` under the fixed extraction directory of
`zipPath`. -/
def extractArchive (zipPath : String) (entries : List ZipEntry) :
    List String × Option String :=
  extractEntries (extractDirOf zipPath) entries []

/-! ## The MoySklad client (`internal/moysklad`) -/

/-- An entity returned by the MoySklad API; the client only ever reads
its `meta`, `name` and `id` fields. -/
structure MSObj where
  id : String
  name : String
  meta : String
deriving DecidableEq

/-- The counterparty-creation payload assembled by
`getOrCreateCounterparty` (`name`, `inn`, `companyType`, optional
`kpp`). -/
structure CounterpartyData where
  name : String
  inn : String
  companyType : String
  kpp : Option String
deriving DecidableEq

/-- The payload of `getOrCreateCounterparty`'s POST: `companyType`
starts as `"legal"`, becomes `"individual"` when `len(buyer.INN)` is 12
(Go `len` counts bytes), and only the legal branch attaches a non-empty
KPP. -/
def buildCounterpartyData (buyer : Organization) : CounterpartyData :=
  let isIndividual := buyer.inn.utf8ByteSize == 12
  { name := buyer.name
    inn := buyer.inn
    companyType := if isIndividual then "individual" else "legal"
    kpp := if isIndividual then none
           else if buyer.kpp ≠ "" then some buyer.kpp else none }

/-- A position of a demand / facture-out document.  `quantity` keeps the
exact decimal value (the source converts it to `float64` when
serialising). -/
structure MSPosition where
  quantity : ℚ
  price : Int
  assortmentMeta : String
  vat : Int
deriving DecidableEq

/-- The demand-creation payload (`createDemand`). -/
structure DemandData where
  name : String
  moment : Moment
  organizationMeta : String
  agentMeta : String
  storeMeta : String
  invoiceOutMeta : Option String
  positions : List MSPosition
deriving DecidableEq

/-- The facture-out-creation payload (`mapUPDToFactureOut`). -/
structure FactureOutData where
  name : String
  moment : Moment
  organizationMeta : String
  agentMeta : String
  demandMeta : String
  positions : List MSPosition
deriving DecidableEq

/-- A document-creating POST issued to the external system.  Read-only
GET requests are not traced. -/
inductive MSRequest
  | postCounterparty (data : CounterpartyData)
  | postDemand (data : DemandData)
  | postFactureOut (data : FactureOutData)
deriving DecidableEq

/-- Whether a request creates a shipment or an invoice document. -/
def MSRequest.isDocCreation : MSRequest → Bool
  | .postDemand _ => true
  | .postFactureOut _ => true
  | .postCounterparty _ => false

/-- The external accounting system, abstracted as the responses it gives
to each call the client makes. -/
structure MSEnv where
  organizationByINN : String → Option MSObj
  counterpartyByINN : String → Option MSObj
  createdCounterparty : CounterpartyData → Option MSObj
  invoiceByRequisite : String → Option MSObj
  storeOfInvoice : MSObj → Option MSObj
  productByArticle : String → Option MSObj
  productByName : String → Option MSObj
  invoicePositionPrice : MSObj → String → Option Int
  anyService : Option MSObj
  demandCreated : DemandData → Option MSObj
  factureOutCreated : FactureOutData → Option MSObj

/-- `getOrCreateCounterparty`: reuse an existing counterparty found by
exact INN filter, otherwise POST a new one.  Returns the result and the
trace of creation requests issued. -/
def getOrCreateCounterparty (env : MSEnv) (buyer : Organization) :
    Except String MSObj × List MSRequest :=
  match env.counterpartyByINN buyer.inn with
  | some c => (.ok c, [])
  | none =>
    let data := buildCounterpartyData buyer
    match env.createdCounterparty data with
    | some r => (.ok r, [.postCounterparty data])
    | none => (.error "Error creating counterparty", [.postCounterparty data])

/-- Product resolution of `createPositionsFromUPD`: by article first
(only when the item carries one), by name only when that yields
nothing. -/
def resolveProduct (env : MSEnv) (item : InvoiceItem) : Option MSObj :=
  let byArticle := if item.article ≠ "" then env.productByArticle item.article else none
  match byArticle with
  | some p => some p
  | none => env.productByName item.name

/-- `getVATRate`: leading digit run of the percentage label, default
18. -/
def getVATRateNum (vatRateStr : String) : Int :=
  if vatRateStr = "" then 18
  else
    let r := firstDigitRun vatRateStr
    if r = "" then 18 else digitsVal r.data

/-- The price computation of `createPositionsFromUPD` for one resolved
item: start from the UPD price in kopecks; a positive invoice price
keyed by the article overrides it; then, whenever the running price
still equals the UPD kopeck price, a positive invoice price keyed by
the name overrides it. -/
def positionPrice (prices : String → Option Int) (item : InvoiceItem) : Int :=
  let updK := intPart (item.price * 100)
  let p1 :=
    if item.article ≠ "" then
      match prices ("article:" ++ item.article) with
      | some ip => if 0 < ip then ip else updK
      | none => updK
    else updK
  if p1 = updK then
    match prices ("name:" ++ item.name) with
    | some ip => if 0 < ip then ip else p1
    | none => p1
  else p1

/-- Formatted entry of the missing-items list: item name with its
article or the `не указан` placeholder. -/
def missingItemText (item : InvoiceItem) : String :=
  let articleInfo := if item.article = "" then "не указан" else item.article
  item.name ++ " (артикул: " ++ articleInfo ++ ")"

/-- The position built for one resolved item. -/
def mkPosition (prices : String → Option Int) (item : InvoiceItem)
    (product : MSObj) : MSPosition :=
  { quantity := item.quantity
    price := positionPrice prices item
    assortmentMeta := product.meta
    vat := getVATRateNum item.vatRate }

/-- The item loop of `createPositionsFromUPD`: accumulate positions for
resolved items and formatted names for unresolved ones. -/
def positionsLoop (env : MSEnv) (prices : String → Option Int) :
    List InvoiceItem → List MSPosition → List String →
    List MSPosition × List String
  | [], ps, ms => (ps.reverse, ms.reverse)
  | it :: its, ps, ms =>
    match resolveProduct env it with
    | some product => positionsLoop env prices its (mkPosition prices it product :: ps) ms
    | none => positionsLoop env prices its ps (missingItemText it :: ms)

/-- The `ProductsNotFound` message, naming every missing item. -/
def productsNotFoundMessage (missing : List String) : String :=
  "The following products from UPD are not found in MoySkald:\n• " ++
    String.intercalate "\n• " missing ++
    "\n\nCreate these products in MoySkald manually and retry UPD upload."

/-- `createPositionsFromUPD`: resolve every UPD item, abort with the
`ProductsNotFound` message when any item is unresolved, and substitute a
single service position when the item table is empty. -/
def createPositionsFromUPD (env : MSEnv) (content : UPDContent)
    (customerInvoice : Option MSObj) : Except String (List MSPosition) :=
  let prices : String → Option Int :=
    match customerInvoice with
    | some inv => env.invoicePositionPrice inv
    | none => fun _ => none
  let pm := positionsLoop env prices content.items [] []
  if pm.2 ≠ [] then .error (productsNotFoundMessage pm.2)
  else if pm.1 = [] then
    let totalK : Int :=
      if 0 < content.totalWithVAT then intPart (content.totalWithVAT * 100)
      else 100000
    match env.anyService with
    | none => .error "No available services in MoySkald to create document position"
    | some service =>
      .ok [{ quantity := 1, price := totalK, assortmentMeta := service.meta, vat := 18 }]
  else .ok pm.1

/-- `findCustomerInvoice`: an empty requisite number is an immediate
failure; otherwise the three filter strategies are abstracted as one
lookup. -/
def findCustomerInvoice (env : MSEnv) (requisiteNumber : String) : Option MSObj :=
  if requisiteNumber = "" then none else env.invoiceByRequisite requisiteNumber

/-- `createDemand`: locate the customer invoice, its store, assemble the
positions, then POST the demand.  The result is paired with the trace of
creation requests. -/
def createDemand (env : MSEnv) (content : UPDContent) (org cp : MSObj) :
    Except String MSObj × List MSRequest :=
  match findCustomerInvoice env content.requisiteNumber with
  | none => (.error ("Customer invoice with number " ++ content.requisiteNumber ++ " not found"), [])
  | some inv =>
    match env.storeOfInvoice inv with
    | none => (.error ("Store not specified in customer invoice " ++ inv.name), [])
    | some store =>
      match createPositionsFromUPD env content (some inv) with
      | .error e => (.error e, [])
      | .ok positions =>
        let data : DemandData :=
          { name := "О" ++ content.invoiceNumber
            moment := content.invoiceDate
            organizationMeta := org.meta
            agentMeta := cp.meta
            storeMeta := store.meta
            invoiceOutMeta := some inv.meta
            positions := positions }
        match env.demandCreated data with
        | some d => (.ok d, [.postDemand data])
        | none => (.error "Error creating demand", [.postDemand data])

/-- `mapUPDToFactureOut`: the invoice payload, re-assembling the
positions (errors from the re-assembly are discarded by the source). -/
def mapUPDToFactureOut (env : MSEnv) (content : UPDContent)
    (org cp demand : MSObj) : FactureOutData :=
  let customerInvoice := findCustomerInvoice env content.requisiteNumber
  let positions :=
    match createPositionsFromUPD env content customerInvoice with
    | .ok ps => ps
    | .error _ => []
  { name := content.invoiceNumber
    moment := content.invoiceDate
    organizationMeta := org.meta
    agentMeta := cp.meta
    demandMeta := demand.meta
    positions := positions }

/-- `CreateInvoiceFromUPD`: seller lookup, buyer counterparty, demand
creation, then facture-out creation, each step a hard dependency on the
previous one.  Returns the outcome and the trace of creation POSTs. -/
def createInvoiceFromUPD (env : MSEnv) (content : UPDContent) :
    Except String (MSObj × MSObj) × List MSRequest :=
  match env.organizationByINN content.seller.inn with
  | none => (.error ("Supplier organization with INN " ++ content.seller.inn ++ " not found in MoySkald"), [])
  | some org =>
    let cpr := getOrCreateCounterparty env content.buyer
    match cpr.1 with
    | .error e => (.error e, cpr.2)
    | .ok cp =>
      let dr := createDemand env content org cp
      match dr.1 with
      | .error e => (.error e, cpr.2 ++ dr.2)
      | .ok demand =>
        let invData := mapUPDToFactureOut env content org cp demand
        match env.factureOutCreated invData with
        | some inv => (.ok (inv, demand), cpr.2 ++ dr.2 ++ [.postFactureOut invData])
        | none => (.error "Error creating invoice", cpr.2 ++ dr.2 ++ [.postFactureOut invData])

/-! ## Helper lemmas -/

/-- Every file path recorded by an `extractEntries` run passed the
prefix check against the cleaned extraction directory. -/
theorem extractEntries_all_inside (dir : String) (es : List ZipEntry) :
    ∀ acc : List String,
      (acc.all fun p => strHasPrefix p (pathClean dir ++ "/")) = true →
      (((extractEntries dir es acc).1).all fun p => strHasPrefix p (pathClean dir ++ "/")) = true := by
  induction es with
  | nil =>
    intro acc h
    simpa [extractEntries, List.all_reverse] using h
  | cons e es ih =>
    intro acc h
    rw [extractEntries]
    split
    · split
      · exact ih acc h
      · apply ih
        simp only [List.all_cons, Bool.and_eq_true]
        constructor
        · assumption
        · exact h
    · simpa [List.all_reverse] using h

/-! ## Claim theorems -/

/-- C8: the safe decimal parser is total — it returns a value for every
input string — and `parseDecimal ""`, `parseDecimal "abc"` and
`parseDecimal "12.50"` evaluate to `0`, `0` and `12.50`. -/
theorem c8_parse_decimal_total :
    (∀ s : String, ∃ q : ℚ, parseDecimal s = q) ∧
    parseDecimal "" = 0 ∧ parseDecimal "abc" = 0 ∧ parseDecimal "12.50" = 25 / 2 :=
  ⟨fun s => ⟨parseDecimal s, rfl⟩, by decide, by decide, by decide⟩

/-- C5: every file written by archive extraction lies strictly inside
the scratch directory (its path carries the cleaned scratch directory
plus separator as a prefix), and the entry `../../etc/passwd` makes
extraction fail with the path-traversal rejection without writing any
file. -/
theorem c5_path_traversal_rejected :
    (∀ zipPath entries, ((extractArchive zipPath entries).1.all
        fun p => strHasPrefix p (pathClean (extractDirOf zipPath) ++ "/")) = true) ∧
    extractArchive "temp/upd_1.zip" [{ name := "../../etc/passwd", isDir := false }] =
      ([], some "invalid file path: ../../etc/passwd") :=
  ⟨fun zipPath entries => extractEntries_all_inside (extractDirOf zipPath) entries [] rfl,
   by decide⟩

/-- C4 counterexample: two distinct archive paths in the same temp
directory get the same extraction directory, refuting per-request
uniqueness of the scratch directory. -/
theorem c4_counterexample :
    pathDir "temp/upd_1000001.zip" = pathDir "temp/upd_1000002.zip" ∧
    "temp/upd_1000001.zip" ≠ "temp/upd_1000002.zip" ∧
    extractDirOf "temp/upd_1000001.zip" = extractDirOf "temp/upd_1000002.zip" :=
  ⟨by decide, by decide, by decide⟩

/-- C4 (amended): the extraction directory is the fixed name
`upd_extract` joined to the archive's parent directory, so any two
requests whose temp archives share a parent directory share one
extraction directory. -/
theorem c4_amended_fixed_extract_dir (p q : String) (h : pathDir p = pathDir q) :
    extractDirOf p = pathJoin (pathDir p) "upd_extract" ∧
    extractDirOf p = extractDirOf q :=
  ⟨rfl, by simp [extractDirOf, h]⟩

/-- C4 witness: the amended statement at two concrete archive paths. -/
theorem c4_amended_witness :
    pathDir "temp/upd_a.zip" = pathDir "temp/upd_b.zip" ∧
    (extractDirOf "temp/upd_a.zip" = pathJoin (pathDir "temp/upd_a.zip") "upd_extract" ∧
     extractDirOf "temp/upd_a.zip" = extractDirOf "temp/upd_b.zip") :=
  ⟨by decide, c4_amended_fixed_extract_dir "temp/upd_a.zip" "temp/upd_b.zip" (by decide)⟩

/-- A parsed line item with catalog code `A1`, name `Widget` and unit
price 99.00, used to exercise the price precedence. -/
def c3Item : InvoiceItem :=
  { lineNumber := 1, name := "Widget", quantity := 1, price := 99,
    amountWithoutVAT := 0, vatRate := "20%", vatAmount := 0,
    amountWithVAT := 0, article := "A1" }

/-- Source-invoice position prices for the counterexample: the
article-keyed price coincides with the parsed 99.00 (9900 kopecks) and a
different name-keyed price is also on file. -/
def c3CexPrices : String → Option Int := fun k =>
  if k = "article:A1" then some 9900
  else if k = "name:Widget" then some 5000
  else none

/-- C3 counterexample: with an article-keyed source-invoice price of
9900 kopecks on file, strict article-before-name precedence would
assemble 9900, but the code assembles the name-keyed 5000 — the name
price overrides an article price equal to the parsed ×100 price. -/
theorem c3_counterexample :
    c3CexPrices ("article:" ++ c3Item.article) = some 9900 ∧
    c3CexPrices ("name:" ++ c3Item.name) = some 5000 ∧
    positionPrice c3CexPrices c3Item = 5000 ∧ (5000 : Int) ≠ 9900 :=
  ⟨by decide, by decide, by decide, by decide⟩

/-- Modelled from the spec as amended by `c3_counterexample`: a positive
article-keyed invoice price wins only when it also differs from the
parsed ×100 price; whenever the price after the article step still
equals the parsed ×100 price, a positive name-keyed invoice price
overrides it; otherwise the parsed ×100 price stands. -/
def positionPriceSpec (prices : String → Option Int) (item : InvoiceItem) : Int :=
  let updK := intPart (item.price * 100)
  let nameFallback :=
    match prices ("name:" ++ item.name) with
    | some q => if 0 < q then q else updK
    | none => updK
  match (if item.article ≠ "" then prices ("article:" ++ item.article) else none) with
  | some p => if 0 < p ∧ p ≠ updK then p else nameFallback
  | none => nameFallback

/-- Source-invoice position prices for the claim's own worked example:
catalog code `A1` priced at 150.00 (15000 kopecks). -/
def c3ExamplePrices : String → Option Int := fun k =>
  if k = "article:A1" then some 15000 else none

/-- C3 (amended): the assembled price equals the amended precedence
`positionPriceSpec` on every input, and the claim's worked example (a
150.00 source-invoice price for code `A1` against a 99.00 parsed price)
still assembles 15000 kopecks. -/
theorem c3_amended_price_precedence :
    (∀ prices item, positionPrice prices item = positionPriceSpec prices item) ∧
    positionPrice c3ExamplePrices c3Item = 15000 := by
  constructor
  · intro prices item
    unfold positionPrice positionPriceSpec
    by_cases ha : item.article = ""
    · simp [ha]
    · simp only [ha, ne_eq, not_false_eq_true, if_true, ite_true]
      rcases hp : prices ("article:" ++ item.article) with _ | p
      · simp
      · by_cases hpos : 0 < p
        · by_cases heq : p = intPart (item.price * 100)
          · simp [hpos, heq]
          · simp [hpos, heq]
        · simp [hpos]
  · decide

/-- C1: a main document whose trimmed text is at most 100 bytes parses
to the sentinel fallback document, a structural unmarshalling error
degrades to the same sentinel instead of propagating, and the sentinel
is exactly the stub with number `Не указан`, `Не указано` parties with
tax id `0000000000`, the current timestamp and no line items. -/
theorem c1_sentinel_fallback (env : ParserEnv) (content : String) :
    ((goTrimSpace content).utf8ByteSize ≤ 100 →
      parseUPDContent env content = createBasicUPDContent) ∧
    (∀ e, env.unmarshal content = .error e →
      parseFullUPDContent env content = createBasicUPDContent) ∧
    createBasicUPDContent =
      { invoiceNumber := "Не указан", invoiceDate := Moment.now,
        seller := { name := "Не указано", inn := "0000000000", kpp := "" },
        buyer := { name := "Не указано", inn := "0000000000", kpp := "" },
        items := [], currencyCode := "643", totalWithoutVAT := 0, totalVAT := 0,
        totalWithVAT := 0, requisiteNumber := "" } := by
  refine ⟨fun h => ?_, fun e he => ?_, rfl⟩
  · simp [parseUPDContent, h]
  · simp [parseFullUPDContent, he]

/-- A parser environment whose unmarshaller always reports a structural
error. -/
def c1Env : ParserEnv :=
  { unmarshal := fun _ => .error "XML syntax error", parseDate := fun _ => none }

/-- C1 witness: the fallback at the concrete stub `<?xml?>` and at a
concrete unmarshalling error. -/
theorem c1_sentinel_fallback_witness :
    (goTrimSpace "<?xml?>").utf8ByteSize ≤ 100 ∧
    parseUPDContent c1Env "<?xml?>" = createBasicUPDContent ∧
    parseFullUPDContent c1Env "<?xml?>" = createBasicUPDContent :=
  ⟨by decide, (c1_sentinel_fallback c1Env "<?xml?>").1 (by decide),
   (c1_sentinel_fallback c1Env "<?xml?>").2.1 "XML syntax error" rfl⟩

/-- The tax id produced by `parseOrganization` is never empty. -/
theorem parseOrganization_inn_ne_empty (lN lI lK iI s g p : String) :
    (parseOrganization lN lI lK iI s g p).inn ≠ "" := by
  unfold parseOrganization
  split_ifs with h1 h2
  · exact h1
  · exact h2
  · decide

/-- Both parties of any parse result carry a non-empty tax id. -/
theorem parseUPDContent_inn_ne_empty (env : ParserEnv) (content : String) :
    (parseUPDContent env content).seller.inn ≠ "" ∧
    (parseUPDContent env content).buyer.inn ≠ "" := by
  unfold parseUPDContent
  split
  · exact ⟨by decide, by decide⟩
  · unfold parseFullUPDContent
    rcases h : env.unmarshal content with e | upd
    · change createBasicUPDContent.seller.inn ≠ "" ∧ createBasicUPDContent.buyer.inn ≠ ""
      exact ⟨by decide, by decide⟩
    · exact ⟨parseOrganization_inn_ne_empty _ _ _ _ _ _ _,
        parseOrganization_inn_ne_empty _ _ _ _ _ _ _⟩

/-- C9: every organization produced by parsing carries a non-empty tax
id — both parties of every parse result, every output of
`parseOrganization`, the sentinel default branch (explicitly the
`Не указано`/`0000000000` organization), and the sentinel fallback
document. -/
theorem c9_taxid_never_empty (env : ParserEnv) (content : String) :
    (parseUPDContent env content).seller.inn ≠ "" ∧
    (parseUPDContent env content).buyer.inn ≠ "" ∧
    (∀ lN lI lK iI s g p, (parseOrganization lN lI lK iI s g p).inn ≠ "") ∧
    (∀ lN lK s g p, parseOrganization lN "" lK "" s g p =
      { name := "Не указано", inn := "0000000000", kpp := "" }) ∧
    createBasicUPDContent.seller.inn = "0000000000" ∧
    createBasicUPDContent.buyer.inn = "0000000000" :=
  ⟨(parseUPDContent_inn_ne_empty env content).1,
   (parseUPDContent_inn_ne_empty env content).2,
   fun lN lI lK iI s g p => parseOrganization_inn_ne_empty lN lI lK iI s g p,
   fun _ _ _ _ _ => rfl, rfl, rfl⟩

/-- Every parsed line item carries equal `amountWithoutVAT` and
`amountWithVAT` fields, whatever the starting line index. -/
theorem parseItemsFrom_amounts_eq (xs : List ItemXML) :
    ∀ i, ((parseItemsFrom i xs).all
      fun it => decide (it.amountWithoutVAT = it.amountWithVAT)) = true := by
  induction xs with
  | nil => intro i; rfl
  | cons x xs ih =>
    intro i
    simp only [parseItemsFrom, List.all_cons, Bool.and_eq_true]
    exact ⟨by simp [mkInvoiceItem], ih (i + 1)⟩

/-- Rewriting the source `amountWithoutVAT` attribute of every XML item
does not change the parse result. -/
theorem parseItemsFrom_ignores_awv (xs : List ItemXML) (f : ItemXML → String) :
    ∀ i, parseItemsFrom i (xs.map fun x => { x with amountWithoutVAT := f x }) =
      parseItemsFrom i xs := by
  induction xs with
  | nil => intro i; rfl
  | cons x xs ih =>
    intro i
    simp only [List.map_cons, parseItemsFrom]
    rw [ih (i + 1)]
    exact rfl

/-- C10: every parsed line item's `AmountWithoutVAT` equals its
`AmountWithVAT` (both are populated from the amount-including-VAT
attribute), and the source's amount-without-VAT attribute never
influences the parsed items. -/
theorem c10_amount_without_vat_mirrors_with_vat (xs : List ItemXML) (f : ItemXML → String) :
    ((parseInvoiceItems xs).all
      fun it => decide (it.amountWithoutVAT = it.amountWithVAT)) = true ∧
    parseInvoiceItems (xs.map fun x => { x with amountWithoutVAT := f x }) =
      parseInvoiceItems xs :=
  ⟨parseItemsFrom_amounts_eq xs 0, parseItemsFrom_ignores_awv xs f 0⟩

/-- C6: product resolution consults the catalog-code (article) lookup
first — a code match is the resolved product whatever the name lookup
would return — and the name lookup decides only when the item has no
code or the code lookup yields no match. -/
theorem c6_article_lookup_first (env : MSEnv) (item : InvoiceItem) :
    (∀ p, item.article ≠ "" → env.productByArticle item.article = some p →
      resolveProduct env item = some p) ∧
    (item.article ≠ "" → env.productByArticle item.article = none →
      resolveProduct env item = env.productByName item.name) ∧
    (item.article = "" → resolveProduct env item = env.productByName item.name) := by
  refine ⟨fun p ha hp => ?_, fun ha hp => ?_, fun ha => ?_⟩
  · simp [resolveProduct, ha, hp]
  · simp [resolveProduct, ha, hp]
  · simp [resolveProduct, ha]

/-- A parsed line item with catalog code `A1` and name `Widget` for the
resolution-order witness. -/
def c6Item : InvoiceItem :=
  { lineNumber := 1, name := "Widget", quantity := 1, price := 99,
    amountWithoutVAT := 0, vatRate := "20%", vatAmount := 0,
    amountWithVAT := 0, article := "A1" }

/-- A catalog in which article `A1` names a product called `Gadget`
while the exact-name lookup for `Widget` names a different product. -/
def c6Env : MSEnv :=
  { organizationByINN := fun _ => none
    counterpartyByINN := fun _ => none
    createdCounterparty := fun _ => none
    invoiceByRequisite := fun _ => none
    storeOfInvoice := fun _ => none
    productByArticle := fun a => if a = "A1" then some ⟨"p1", "Gadget", "m1"⟩ else none
    productByName := fun n => if n = "Widget" then some ⟨"p2", "Widget", "m2"⟩ else none
    invoicePositionPrice := fun _ _ => none
    anyService := none
    demandCreated := fun _ => none
    factureOutCreated := fun _ => none }

/-- C6 witness: for the concrete item with code `A1` and name `Widget`,
the differently-named code match `Gadget` is the resolved product. -/
theorem c6_article_lookup_first_witness :
    resolveProduct c6Env c6Item = some ⟨"p1", "Gadget", "m1"⟩ :=
  (c6_article_lookup_first c6Env c6Item).1 ⟨"p1", "Gadget", "m1"⟩ (by decide) rfl

/-- C7: a counterparty found by exact tax-id filter is reused with no
creation request; otherwise the creation payload's entity type is
`individual` exactly when the tax id is 12 bytes long and `legal`
otherwise, and the payload carries a KPP only in the legal case and only
when the buyer's KPP is non-empty. -/
theorem c7_counterparty_creation (env : MSEnv) (buyer : Organization) :
    (∀ c, env.counterpartyByINN buyer.inn = some c →
      getOrCreateCounterparty env buyer = (.ok c, [])) ∧
    (env.counterpartyByINN buyer.inn = none →
      (getOrCreateCounterparty env buyer).2 =
        [.postCounterparty (buildCounterpartyData buyer)]) ∧
    ((buildCounterpartyData buyer).companyType = "individual" ↔
      buyer.inn.utf8ByteSize = 12) ∧
    (buyer.inn.utf8ByteSize ≠ 12 → (buildCounterpartyData buyer).companyType = "legal") ∧
    (buyer.inn.utf8ByteSize = 12 → (buildCounterpartyData buyer).kpp = none) ∧
    (buyer.inn.utf8ByteSize ≠ 12 → buyer.kpp ≠ "" →
      (buildCounterpartyData buyer).kpp = some buyer.kpp) ∧
    (buyer.inn.utf8ByteSize ≠ 12 → buyer.kpp = "" →
      (buildCounterpartyData buyer).kpp = none) := by
  refine ⟨fun c hc => ?_, fun hn => ?_, ?_, fun h => ?_, fun h => ?_,
    fun h hk => ?_, fun h hk => ?_⟩
  · simp [getOrCreateCounterparty, hc]
  · rcases h2 : env.createdCounterparty (buildCounterpartyData buyer) with _ | r <;>
      simp [getOrCreateCounterparty, hn, h2]
  · by_cases h : buyer.inn.utf8ByteSize = 12 <;> simp [buildCounterpartyData, h]
  · simp [buildCounterpartyData, h]
  · simp [buildCounterpartyData, h]
  · simp [buildCounterpartyData, h, hk]
  · simp [buildCounterpartyData, h, hk]

/-- An accounting system with no existing counterparties. -/
def c7Env : MSEnv :=
  { organizationByINN := fun _ => none
    counterpartyByINN := fun _ => none
    createdCounterparty := fun d => some ⟨"cp1", d.name, "mcp1"⟩
    invoiceByRequisite := fun _ => none
    storeOfInvoice := fun _ => none
    productByArticle := fun _ => none
    productByName := fun _ => none
    invoicePositionPrice := fun _ _ => none
    anyService := none
    demandCreated := fun _ => none
    factureOutCreated := fun _ => none }

/-- A buyer with a 12-byte tax id and a non-empty registration code. -/
def c7Buyer : Organization :=
  { name := "ИП Иванов", inn := "500000000000", kpp := "999901001" }

/-- C7 witness: an absent 12-digit buyer is created as an individual
with no KPP in the payload. -/
theorem c7_counterparty_creation_witness :
    (getOrCreateCounterparty c7Env c7Buyer).2 =
      [.postCounterparty (buildCounterpartyData c7Buyer)] ∧
    (buildCounterpartyData c7Buyer).companyType = "individual" ∧
    (buildCounterpartyData c7Buyer).kpp = none :=
  ⟨(c7_counterparty_creation c7Env c7Buyer).2.1 rfl,
   ((c7_counterparty_creation c7Env c7Buyer).2.2.1).mpr (by decide),
   (c7_counterparty_creation c7Env c7Buyer).2.2.2.2.1 (by decide)⟩

/-- The formatted missing-items list of a resolution pass over `items`:
one entry per item resolving to no product. -/
def missingOf (env : MSEnv) (items : List InvoiceItem) : List String :=
  items.filterMap fun it =>
    match resolveProduct env it with
    | some _ => none
    | none => some (missingItemText it)

/-- The positions assembled for the resolved items of `items`. -/
def positionsOf (env : MSEnv) (prices : String → Option Int)
    (items : List InvoiceItem) : List MSPosition :=
  items.filterMap fun it => (resolveProduct env it).map (mkPosition prices it)

/-- The accumulating loop equals its declarative description. -/
theorem positionsLoop_eq (env : MSEnv) (prices : String → Option Int) :
    ∀ (items : List InvoiceItem) (ps : List MSPosition) (ms : List String),
      positionsLoop env prices items ps ms =
        (ps.reverse ++ positionsOf env prices items,
         ms.reverse ++ missingOf env items) := by
  intro items
  induction items with
  | nil =>
    intro ps ms
    simp [positionsLoop, positionsOf, missingOf]
  | cons it its ih =>
    intro ps ms
    rcases h : resolveProduct env it with _ | prod <;>
      simp only [positionsLoop, h, positionsOf, missingOf, List.filterMap_cons] <;>
      rw [ih] <;>
      simp [positionsOf, missingOf]

/-- Every unresolved member of `items` is named in the missing list. -/
theorem missingItemText_mem_missingOf (env : MSEnv) {it : InvoiceItem}
    {items : List InvoiceItem} (hmem : it ∈ items)
    (hres : resolveProduct env it = none) :
    missingItemText it ∈ missingOf env items := by
  unfold missingOf
  refine List.mem_filterMap.mpr ⟨it, hmem, ?_⟩
  rw [hres]

/-- A non-empty missing list makes position assembly fail with the
`ProductsNotFound` message, whatever the customer invoice. -/
theorem createPositions_error_of_missing (env : MSEnv) (content : UPDContent)
    (h : missingOf env content.items ≠ []) (ci : Option MSObj) :
    createPositionsFromUPD env content ci =
      .error (productsNotFoundMessage (missingOf env content.items)) := by
  simp only [createPositionsFromUPD, positionsLoop_eq, List.reverse_nil,
    List.nil_append]
  simp [h]

/-- With an unresolved item, demand creation fails before its POST:
whatever the environment, the result is an error with an empty request
trace. -/
theorem createDemand_error_of_missing (env : MSEnv) (content : UPDContent)
    (org cp : MSObj) (h : missingOf env content.items ≠ []) :
    ∃ e, createDemand env content org cp = (.error e, []) := by
  unfold createDemand
  split
  · exact ⟨_, rfl⟩
  next inv _ =>
    split
    · exact ⟨_, rfl⟩
    · rw [createPositions_error_of_missing env content h (some inv)]
      exact ⟨_, rfl⟩

/-- The counterparty step never issues a document-creating request. -/
theorem getOrCreateCounterparty_no_doc (env : MSEnv) (buyer : Organization) :
    ((getOrCreateCounterparty env buyer).2.all fun r => !r.isDocCreation) = true := by
  unfold getOrCreateCounterparty
  split
  · rfl
  · dsimp only
    split <;> simp [MSRequest.isDocCreation]

/-- C2: when at least one parsed line item resolves to no catalog
product, position assembly fails with the `ProductsNotFound` message
built from the missing-items list — a list naming every unresolved item
— whatever customer invoice is supplied, and the reconciliation issues
no shipment-creation and no invoice-creation request. -/
theorem c2_products_not_found (env : MSEnv) (content : UPDContent)
    (h : ∃ it ∈ content.items, resolveProduct env it = none) :
    (∀ ci, createPositionsFromUPD env content ci =
      .error (productsNotFoundMessage (missingOf env content.items))) ∧
    (∀ it ∈ content.items, resolveProduct env it = none →
      missingItemText it ∈ missingOf env content.items) ∧
    ((createInvoiceFromUPD env content).2.all fun r => !r.isDocCreation) = true := by
  obtain ⟨it0, hmem0, hres0⟩ := h
  have hne : missingOf env content.items ≠ [] :=
    List.ne_nil_of_mem (missingItemText_mem_missingOf env hmem0 hres0)
  refine ⟨fun ci => createPositions_error_of_missing env content hne ci,
    fun it hmem hres => missingItemText_mem_missingOf env hmem hres, ?_⟩
  simp only [createInvoiceFromUPD]
  split
  · rfl
  next org _ =>
    split
    · exact getOrCreateCounterparty_no_doc env content.buyer
    next cp _ =>
      obtain ⟨e, hd⟩ := createDemand_error_of_missing env content org cp hne
      split
      next e2 heq =>
        rw [hd]
        simpa using getOrCreateCounterparty_no_doc env content.buyer
      next demand heq =>
        rw [hd] at heq
        simp at heq

/-- A parsed line item whose catalog code and name match nothing. -/
def c2Item : InvoiceItem :=
  { lineNumber := 1, name := "Товар", quantity := 1, price := 10,
    amountWithoutVAT := 0, vatRate := "20%", vatAmount := 0,
    amountWithVAT := 0, article := "X1" }

/-- A parsed document with one unresolvable line item. -/
def c2Content : UPDContent :=
  { invoiceNumber := "42", invoiceDate := Moment.now,
    seller := { name := "ООО Продавец", inn := "7700000000", kpp := "" },
    buyer := { name := "ООО Покупатель", inn := "5000000000", kpp := "" },
    items := [c2Item], currencyCode := "643",
    totalWithoutVAT := 0, totalVAT := 0, totalWithVAT := 0,
    requisiteNumber := "42" }

/-- An accounting system where every step would succeed except that the
product catalog is empty. -/
def c2Env : MSEnv :=
  { organizationByINN := fun i => if i = "7700000000" then some ⟨"o1", "Продавец", "mo1"⟩ else none
    counterpartyByINN := fun _ => none
    createdCounterparty := fun d => some ⟨"cp1", d.name, "mcp1"⟩
    invoiceByRequisite := fun r => if r = "42" then some ⟨"i1", "42", "mi1"⟩ else none
    storeOfInvoice := fun _ => some ⟨"s1", "Склад", "ms1"⟩
    productByArticle := fun _ => none
    productByName := fun _ => none
    invoicePositionPrice := fun _ _ => none
    anyService := some ⟨"sv1", "Услуга", "msv1"⟩
    demandCreated := fun _ => some ⟨"d1", "Отгрузка", "md1"⟩
    factureOutCreated := fun _ => some ⟨"f1", "Счет", "mf1"⟩ }

/-- C2 witness: with the concrete unresolvable item, position assembly
fails with the `ProductsNotFound` message and the reconciliation issues
no shipment- or invoice-creation request. -/
theorem c2_products_not_found_witness :
    (∀ ci, createPositionsFromUPD c2Env c2Content ci =
      .error (productsNotFoundMessage (missingOf c2Env c2Content.items))) ∧
    (∀ it ∈ c2Content.items, resolveProduct c2Env it = none →
      missingItemText it ∈ missingOf c2Env c2Content.items) ∧
    ((createInvoiceFromUPD c2Env c2Content).2.all fun r => !r.isDocCreation) = true :=
  c2_products_not_found c2Env c2Content ⟨c2Item, List.mem_singleton.mpr rfl, rfl⟩
